import Mathlib

/-!
# Verification of the neo4j-javascript-driver gulp build orchestrator

A shallow embedding, in Lean 4, of `gulpfile.babel.js`: the browserify
require-rewrite transform (`browserifyTransformNodeToBrowserRequire`), the
version-stamping `set` task, the karma runner glue (`runKarma`), and the
gulp task graph (`gulp.task` / `gulp.series` compositions), together with
theorems settling the specification's claims about them.

Strings are embedded as `List Char` (a JS string is a sequence of UTF-16
code units; every string handled here is ASCII, so `List Char` is faithful).
-/

namespace Gulpfile

/-! ## JS string primitives

`browserifyTransformNodeToBrowserRequire` uses two JS string operations:

* `s.slice(-n) === pat` — compare the last `n` characters with `pat`
  (for `n ≥ s.length`, `slice(-n)` is all of `s`);
* `s.replace(pat, rep)` with a *string* pattern — replace only the FIRST
  occurrence of `pat` in `s` (leftmost match), or return `s` unchanged if
  `pat` does not occur.

The `set` task uses `gulp-replace` with a string pattern, which replaces
EVERY occurrence (split/join semantics). We embed all three.
-/

/-- JS `s.slice(-n)`: the last `min n s.length` characters of `s`
(for `n = 0` JS gives `''` via `slice(0)`; the transform only calls it
with `n = '/node'.length = 5`). -/
def jsSliceNeg (s : List Char) (n : Nat) : List Char :=
  if n = 0 then [] else s.drop (s.length - n)

/-- JS `s.replace(pat, rep)` with a string pattern: replace the first
(leftmost) occurrence of `pat`; if `pat` does not occur, return `s`.
An empty pattern matches at position 0 (JS `'abc'.replace('', 'X') = 'Xabc'`). -/
def jsReplaceFirst (pat rep : List Char) : List Char → List Char
  | [] => if pat = [] then rep else []
  | c :: cs =>
    if pat.isPrefixOf (c :: cs) then rep ++ (c :: cs).drop pat.length
    else c :: jsReplaceFirst pat rep cs

/-- Does `pat` occur as a contiguous segment anywhere in `s`? -/
def containsSeg (pat : List Char) : List Char → Bool
  | [] => decide (pat = [])
  | c :: cs => pat.isPrefixOf (c :: cs) || containsSeg pat cs

/-- `gulp-replace` with a string pattern: replace every (non-overlapping,
leftmost-first) occurrence of `pat` by `rep`. -/
def gulpReplaceAll (pat rep : List Char) : List Char → List Char
  | [] => []
  | c :: cs =>
    if pat ≠ [] ∧ pat.isPrefixOf (c :: cs)
    then rep ++ gulpReplaceAll pat rep (cs.drop (pat.length - 1))
    else c :: gulpReplaceAll pat rep cs
termination_by s => s.length
decreasing_by
  · simp only [List.length_drop, List.length_cons]
    omega
  · simp

/-! ## The Source Transformer (`browserifyTransformNodeToBrowserRequire`)

```js
var nodeRequire = '/node'
var browserRequire = '/browser'
...
var requireArg = args[0]
var endsWithNodeRequire =
  requireArg.slice(-nodeRequire.length) === nodeRequire
if (endsWithNodeRequire) {
  var newRequireArg = requireArg.replace(nodeRequire, browserRequire)
  return cb(null, "require('" + newRequireArg + "')")
} else {
  return cb()
}
```

`cb()` with no argument leaves the require unchanged, so the rewrite on the
module-reference string is the function below.
-/

def nodeRequire : List Char := '/' :: 'n' :: 'o' :: 'd' :: 'e' :: []

def browserRequire : List Char :=
  '/' :: 'b' :: 'r' :: 'o' :: 'w' :: 's' :: 'e' :: 'r' :: []

/-- The module-reference rewrite performed by
`browserifyTransformNodeToBrowserRequire` on each require argument. -/
def browserifyTransformNodeToBrowserRequire (requireArg : List Char) : List Char :=
  if jsSliceNeg requireArg nodeRequire.length = nodeRequire
  then jsReplaceFirst nodeRequire browserRequire requireArg
  else requireArg

/-! ## Lemmas about the string primitives -/

theorem containsSeg_cons (pat : List Char) (c : Char) (cs : List Char) :
    containsSeg pat (c :: cs) = (pat.isPrefixOf (c :: cs) || containsSeg pat cs) := rfl

theorem isPrefixOf_eq_false_of_containsSeg {pat s : List Char}
    (h : containsSeg pat s = false) : pat.isPrefixOf s = false := by
  cases s with
  | nil =>
    simp only [containsSeg, decide_eq_false_iff_not] at h
    cases pat with
    | nil => exact absurd rfl h
    | cons c cs => rfl
  | cons c cs =>
    rw [containsSeg_cons] at h
    exact (Bool.or_eq_false_iff.mp h).1

theorem containsSeg_tail {pat : List Char} {c : Char} {cs : List Char}
    (h : containsSeg pat (c :: cs) = false) : containsSeg pat cs = false := by
  rw [containsSeg_cons] at h
  exact (Bool.or_eq_false_iff.mp h).2

theorem containsSeg_of_isPrefixOf {pat s : List Char}
    (h : pat.isPrefixOf s = true) : containsSeg pat s = true := by
  cases s with
  | nil =>
    have : pat = [] := List.prefix_nil.mp (List.isPrefixOf_iff_prefix.mp h)
    simp [containsSeg, this]
  | cons c cs => rw [containsSeg_cons, h, Bool.true_or]

/-- If `pat` has no occurrence inside `p ++ pat.dropLast` and `p` is nonempty,
then `pat` is not a prefix of `p ++ pat ++ rest` (the first occurrence of
`pat` in `p ++ pat ++ rest` cannot be at position 0). -/
theorem not_isPrefixOf_of_no_occurrence {pat : List Char} (hp : pat ≠ [])
    (c : Char) (p' rest : List Char)
    (h : containsSeg pat ((c :: p') ++ pat.dropLast) = false) :
    pat.isPrefixOf ((c :: p') ++ pat ++ rest) = false := by
  cases hb : pat.isPrefixOf ((c :: p') ++ pat ++ rest) with
  | false => rfl
  | true =>
    exfalso
    have h1 : pat <+: (c :: p') ++ pat ++ rest := List.isPrefixOf_iff_prefix.mp hb
    have hsplit : (c :: p') ++ pat ++ rest
        = ((c :: p') ++ pat.dropLast) ++ ([pat.getLast hp] ++ rest) := by
      conv_lhs => rw [← List.dropLast_append_getLast hp]
      simp [List.append_assoc]
    have h2 : (c :: p') ++ pat.dropLast <+: (c :: p') ++ pat ++ rest := by
      rw [hsplit]; exact List.prefix_append _ _
    have hlen : pat.length ≤ ((c :: p') ++ pat.dropLast).length := by
      have : pat.length - 1 = pat.dropLast.length := (List.length_dropLast pat).symm
      simp only [List.length_append, List.length_cons]
      omega
    have h3 : pat <+: (c :: p') ++ pat.dropLast :=
      List.prefix_of_prefix_length_le h1 h2 hlen
    have h4 : containsSeg pat ((c :: p') ++ pat.dropLast) = true :=
      containsSeg_of_isPrefixOf (List.isPrefixOf_iff_prefix.mpr h3)
    rw [h4] at h
    exact absurd h (by decide)

/-- When the first occurrence of `pat` in `p ++ pat` is the final one,
JS `replace` (first occurrence, string pattern) rewrites exactly the suffix. -/
theorem jsReplaceFirst_no_earlier (pat rep : List Char) (hp : pat ≠ [])
    (p : List Char) (h : containsSeg pat (p ++ pat.dropLast) = false) :
    jsReplaceFirst pat rep (p ++ pat) = p ++ rep := by
  induction p with
  | nil =>
    cases hpat : pat with
    | nil => exact absurd hpat hp
    | cons c cs =>
      simp only [List.nil_append]
      rw [jsReplaceFirst]
      rw [if_pos (List.isPrefixOf_iff_prefix.mpr (List.prefix_refl _))]
      simp
  | cons c p' ih =>
    have hpre : pat.isPrefixOf ((c :: p') ++ pat ++ []) = false := by
      exact not_isPrefixOf_of_no_occurrence hp c p' [] h
    rw [List.append_nil] at hpre
    show jsReplaceFirst pat rep (c :: (p' ++ pat)) = c :: (p' ++ rep)
    rw [jsReplaceFirst]
    rw [show ((c :: (p' ++ pat)) = ((c :: p') ++ pat)) from rfl] at *
    rw [if_neg (by rw [hpre]; exact Bool.false_ne_true)]
    exact congrArg (c :: ·) (ih (containsSeg_tail h))

theorem jsSliceNeg_eq_iff (pat s : List Char) :
    jsSliceNeg s pat.length = pat ↔ pat <:+ s := by
  unfold jsSliceNeg
  by_cases h0 : pat.length = 0
  · have hnil : pat = [] := List.length_eq_zero.mp h0
    subst hnil
    simp
  · rw [if_neg h0]
    constructor
    · intro h
      rw [← h]
      exact List.drop_suffix _ _
    · rintro ⟨t, rfl⟩
      have hl : (t ++ pat).length - pat.length = t.length := by
        simp [List.length_append]
      rw [hl, List.drop_left]

theorem nodeRequire_not_suffix_of_browser (p : List Char) :
    ¬ nodeRequire <:+ (p ++ browserRequire) := by
  intro h
  have h2 : browserRequire <:+ (p ++ browserRequire) := List.suffix_append p browserRequire
  have h3 : nodeRequire <:+ browserRequire :=
    List.suffix_of_suffix_length_le h h2 (by decide)
  exact absurd h3 (by decide)

/-- On a reference whose only occurrence of `'/node'` is the final suffix,
the transform rewrites exactly that suffix to `'/browser'`. -/
theorem transform_of_ends_with (p : List Char)
    (h : containsSeg nodeRequire (p ++ nodeRequire.dropLast) = false) :
    browserifyTransformNodeToBrowserRequire (p ++ nodeRequire) = p ++ browserRequire := by
  unfold browserifyTransformNodeToBrowserRequire
  rw [if_pos ((jsSliceNeg_eq_iff _ _).mpr (List.suffix_append p nodeRequire))]
  exact jsReplaceFirst_no_earlier _ _ (by decide) p h

/-- On a reference that does not end with `'/node'`, the transform is the
identity. -/
theorem transform_of_not_ends_with (s : List Char) (h : ¬ nodeRequire <:+ s) :
    browserifyTransformNodeToBrowserRequire s = s := by
  unfold browserifyTransformNodeToBrowserRequire
  rw [if_neg (fun hc => h ((jsSliceNeg_eq_iff _ _).mp hc))]

/-! ## Claims C1 and C2: the Source Transformer rewrite -/

/-- C1 (counterexample): the reference `'./node/node'` ends with the server
suffix `'/node'`, yet `browserifyTransformNodeToBrowserRequire` emits
`'./browser/node'`, which does not end with `'/browser'` and is not
character-identical to the input before the final suffix.  JS
`String.replace` with a string pattern rewrites the FIRST occurrence of
`'/node'`, not the suffix occurrence the guard tested for. -/
theorem C1_counterexample :
    nodeRequire.isSuffixOf "./node/node".data = true ∧
    browserifyTransformNodeToBrowserRequire "./node/node".data = "./browser/node".data ∧
    browserRequire.isSuffixOf
      (browserifyTransformNodeToBrowserRequire "./node/node".data) = false := by
  decide

/-- C1 (amended): for every reference of the form `p ++ '/node'` in which
`'/node'` has no occurrence before the final suffix (no occurrence inside
`p ++ '/nod'`), the transformer output is `p ++ '/browser'` — it ends with
the browser suffix and is character-identical to the input on every
character before the suffix; and every reference `s` not ending with
`'/node'` is emitted unchanged. -/
theorem C1_amended_transform (p s : List Char)
    (h1 : containsSeg nodeRequire (p ++ nodeRequire.dropLast) = false)
    (h2 : nodeRequire.isSuffixOf s = false) :
    browserifyTransformNodeToBrowserRequire (p ++ nodeRequire) = p ++ browserRequire ∧
    browserifyTransformNodeToBrowserRequire s = s := by
  refine ⟨transform_of_ends_with p h1, transform_of_not_ends_with s ?_⟩
  intro hc
  exact absurd (List.isSuffixOf_iff_suffix.mpr hc) (by simp [h2])

/-- Witness for `C1_amended_transform` at the concrete references
`'./internal/node'` (rewritten) and `'./buf'` (unchanged). -/
theorem C1_amended_transform_witness :
    (containsSeg nodeRequire ("./internal".data ++ nodeRequire.dropLast) = false ∧
     nodeRequire.isSuffixOf "./buf".data = false) ∧
    (browserifyTransformNodeToBrowserRequire ("./internal".data ++ nodeRequire)
        = "./internal".data ++ browserRequire ∧
     browserifyTransformNodeToBrowserRequire "./buf".data = "./buf".data) :=
  ⟨⟨by decide, by decide⟩,
   C1_amended_transform "./internal".data "./buf".data (by decide) (by decide)⟩

/-- C2 (counterexample): the transformer is not idempotent.  On
`'./node/node'` one application yields `'./browser/node'`, a second
application yields `'./browser/browser'`, so applying it twice differs from
applying it once. -/
theorem C2_counterexample :
    browserifyTransformNodeToBrowserRequire
        (browserifyTransformNodeToBrowserRequire "./node/node".data)
      ≠ browserifyTransformNodeToBrowserRequire "./node/node".data := by
  decide

/-- C2 (amended): the transformer is idempotent on every reference in which
`'/node'` has no occurrence strictly inside the string (no occurrence
within `s.dropLast`; the only possible occurrence is the final suffix).
In particular all references with at most one occurrence of `'/node'` are
rewritten idempotently. -/
theorem C2_amended_idempotent (s : List Char)
    (h : containsSeg nodeRequire s.dropLast = false) :
    browserifyTransformNodeToBrowserRequire (browserifyTransformNodeToBrowserRequire s)
      = browserifyTransformNodeToBrowserRequire s := by
  by_cases hs : nodeRequire <:+ s
  · obtain ⟨p, rfl⟩ := hs
    rw [List.dropLast_append_of_ne_nil p (by decide)] at h
    rw [transform_of_ends_with p h]
    exact transform_of_not_ends_with _ (nodeRequire_not_suffix_of_browser p)
  · rw [transform_of_not_ends_with s hs]
    exact transform_of_not_ends_with s hs

/-- Witness for `C2_amended_idempotent` at the concrete reference
`'./x/node'`. -/
theorem C2_amended_idempotent_witness :
    containsSeg nodeRequire ("./x/node".data.dropLast) = false ∧
    browserifyTransformNodeToBrowserRequire
        (browserifyTransformNodeToBrowserRequire "./x/node".data)
      = browserifyTransformNodeToBrowserRequire "./x/node".data :=
  ⟨by decide, C2_amended_idempotent "./x/node".data (by decide)⟩

/-! ## The gulp task graph

The gulpfile registers tasks with `gulp.task(name, body)` where a body is
either a plain function (a leaf action) or a `gulp.series(...)` composition
of previously registered tasks and functions.  The gulp 4 API also offers
`gulp.parallel(...)`; this gulpfile never calls it, but we include it in
the embedding so that (non-)concurrency claims are expressible.

Leaf actions are identified by the `Act` enumeration; an environment
`env : Act → Bool` records whether each leaf action, when run, succeeds.
`gulp.series` semantics: run the parts in order, stop at the first failure
(fail-fast), succeed iff all parts succeed.  `runTask` returns the overall
success flag and the ordered trace of leaf actions that were started.
-/

/-- The leaf actions (anonymous task functions) of the gulpfile. -/
inductive Act where
  /-- body of `'nodejs'`: babel-compile `src/**/*.js` into `lib` -/
  | babelCompileSrc
  /-- anonymous function of `'install-driver-into-sandbox'`: empty
  `build/sandbox`, write a `package.json` depending on the driver by local
  path, and run a real dependency install -/
  | sandboxInstall
  /-- anonymous function of `'test-nodejs'`: run the node test suite under
  jasmine -/
  | jasmineNodeTests
  /-- `runKarma('chrome', cb)` -/
  | karmaChrome
  /-- `runKarma('firefox', cb)` -/
  | karmaFirefox
  /-- `runKarma('edge', cb)` -/
  | karmaEdge
  /-- `runKarma('ie', cb)` -/
  | karmaIe
  /-- body of `'build-browser-test'`: browserify the test files -/
  | buildBrowserTestBundle
  /-- body of `'build-browser'`: browserify `src/index.js`, full + minified -/
  | buildBrowserBundle
  /-- body of `'run-ts-declaration-tests'` -/
  | tsDeclarationTests
  deriving DecidableEq, Repr

/-- A gulp task body: a leaf action, `gulp.series` (binary; an n-ary series
is the right-nested binary one) or `gulp.parallel` (available in the gulp
API, unused by this gulpfile). -/
inductive GTask where
  | action : Act → GTask
  | seq : GTask → GTask → GTask
  | par : GTask → GTask → GTask

/-- Reference execution of a task: success flag and ordered action trace.
`seq` is fail-fast; `par` is recorded here in its left-then-right reference
schedule (the full schedule set is `schedules`). -/
def runTask (env : Act → Bool) : GTask → Bool × List Act
  | .action a => (env a, [a])
  | .seq x y =>
    let rx := runTask env x
    if rx.1 then
      let ry := runTask env y
      (ry.1, rx.2 ++ ry.2)
    else rx
  | .par x y =>
    let rx := runTask env x
    let ry := runTask env y
    (rx.1 && ry.1, rx.2 ++ ry.2)

/-- All interleavings of two traces (the possible observation orders of two
concurrently running branches). -/
def interleavings : List Act → List Act → List (List Act)
  | [], ys => [ys]
  | x :: xs, [] => [x :: xs]
  | x :: xs, y :: ys =>
      (interleavings xs (y :: ys)).map (x :: ·) ++
      (interleavings (x :: xs) ys).map (y :: ·)
termination_by xs ys => xs.length + ys.length

/-- The set (as a list) of possible `(success, trace)` outcomes of a task:
`seq` runs left then right, fail-fast; `par` admits every interleaving of
its branches. -/
def schedules (env : Act → Bool) : GTask → List (Bool × List Act)
  | .action a => [(env a, [a])]
  | .seq x y =>
    (schedules env x).flatMap fun rx =>
      if rx.1 then (schedules env y).map fun ry => (ry.1, rx.2 ++ ry.2)
      else [rx]
  | .par x y =>
    (schedules env x).flatMap fun rx =>
      (schedules env y).flatMap fun ry =>
        (interleavings rx.2 ry.2).map fun tr => (rx.1 && ry.1, tr)

/-- Does the task body avoid `gulp.parallel` entirely? -/
def parFree : GTask → Bool
  | .action _ => true
  | .seq x y => parFree x && parFree y
  | .par _ _ => false

/-- Every leaf action mentioned by a task body. -/
def actsOf : GTask → List Act
  | .action a => [a]
  | .seq x y => actsOf x ++ actsOf y
  | .par x y => actsOf x ++ actsOf y

/-! ### The task registry of the gulpfile -/

/-- `gulp.task('nodejs', fn)` -/
def nodejsTask : GTask := .action .babelCompileSrc

/-- `gulp.task('install-driver-into-sandbox', gulp.series('nodejs', fn))` -/
def installDriverIntoSandboxTask : GTask :=
  .seq nodejsTask (.action .sandboxInstall)

/-- `gulp.task('test-nodejs', gulp.series('install-driver-into-sandbox', fn))` -/
def testNodejsTask : GTask :=
  .seq installDriverIntoSandboxTask (.action .jasmineNodeTests)

/-- `gulp.task('run-browser-test-chrome', fn)` -/
def runBrowserTestChromeTask : GTask := .action .karmaChrome

/-- `gulp.task('run-browser-test-firefox', fn)` -/
def runBrowserTestFirefoxTask : GTask := .action .karmaFirefox

/-- `gulp.task('run-browser-test-edge', fn)` -/
def runBrowserTestEdgeTask : GTask := .action .karmaEdge

/-- `gulp.task('run-browser-test-ie', fn)` -/
def runBrowserTestIeTask : GTask := .action .karmaIe

/-- `gulp.task('run-browser-test', gulp.series('run-browser-test-firefox'))`
— a one-element series is the task itself. -/
def runBrowserTestTask : GTask := runBrowserTestFirefoxTask

/-- `gulp.task('build-browser-test', fn)` -/
def buildBrowserTestTask : GTask := .action .buildBrowserTestBundle

/-- `gulp.task('build-browser', fn)` -/
def buildBrowserTask : GTask := .action .buildBrowserBundle

/-- `gulp.task('browser', gulp.series('build-browser-test', 'build-browser'))` -/
def browserTask : GTask := .seq buildBrowserTestTask buildBrowserTask

/-- `gulp.task('all', gulp.series('nodejs', 'browser'))` -/
def allTask : GTask := .seq nodejsTask browserTask

/-- `gulp.task('test-browser', gulp.series('all', 'run-browser-test'))` -/
def testBrowserTask : GTask := .seq allTask runBrowserTestTask

/-- `gulp.task('run-ts-declaration-tests', fn)` -/
def runTsDeclarationTestsTask : GTask := .action .tsDeclarationTests

/-- `gulp.task('test', gulp.series('run-ts-declaration-tests', 'test-nodejs',
'test-browser'))` -/
def testTask : GTask :=
  .seq runTsDeclarationTestsTask (.seq testNodejsTask testBrowserTask)

/-! ### Task-graph lemmas -/

theorem runTask_seq (env : Act → Bool) (x y : GTask) :
    runTask env (.seq x y) =
      ((runTask env x).1 && (runTask env y).1,
       (runTask env x).2 ++ (if (runTask env x).1 then (runTask env y).2 else [])) := by
  simp only [runTask]
  cases hx : (runTask env x).1 <;> simp [hx, Prod.ext_iff]

theorem runTask_trace_subset (env : Act → Bool) :
    ∀ t : GTask, (runTask env t).2 ⊆ actsOf t := by
  intro t
  induction t with
  | action a => simp [runTask, actsOf]
  | seq x y ihx ihy =>
    rw [runTask_seq]
    simp only [actsOf]
    intro a ha
    rcases List.mem_append.mp ha with h | h
    · exact List.mem_append.mpr (Or.inl (ihx h))
    · rcases hx : (runTask env x).1 with _ | _ <;> rw [hx] at h
      · simp at h
      · exact List.mem_append.mpr (Or.inr (ihy h))
  | par x y ihx ihy =>
    simp only [runTask, actsOf]
    intro a ha
    rcases List.mem_append.mp ha with h | h
    · exact List.mem_append.mpr (Or.inl (ihx h))
    · exact List.mem_append.mpr (Or.inr (ihy h))

/-- A task body that never uses `gulp.parallel` has exactly one possible
schedule: its deterministic serialized run. -/
theorem schedules_of_parFree :
    ∀ t : GTask, parFree t = true →
      ∀ env : Act → Bool, schedules env t = [runTask env t]
  | .action _, _, _ => rfl
  | .seq x y, hp, env => by
    have hxy := Bool.and_eq_true (parFree x) (parFree y) |>.mp hp
    have ihx := schedules_of_parFree x hxy.1 env
    have ihy := schedules_of_parFree y hxy.2 env
    rw [runTask_seq]
    simp only [schedules, ihx, ihy]
    cases hx : (runTask env x).1 <;> simp [hx, Prod.ext_iff]
  | .par _ _, hp, _ => by simp [parFree] at hp

/-! ## Claims C5, C7, C9, C10: the task graph -/

/-- C5: whenever the Sandbox Installer's dependency-install step exits
non-zero (`env Act.sandboxInstall = false`), the jasmine server-path test
action never appears in the execution trace — neither when `test-nodejs` is
invoked directly nor within the `test` command.  `gulp.series` is
fail-fast: the anonymous jasmine function of `'test-nodejs'` is only
started after `'install-driver-into-sandbox'` completed successfully. -/
theorem C5_install_failure_blocks_node_tests (env : Act → Bool)
    (h : env Act.sandboxInstall = false) :
    Act.jasmineNodeTests ∉ (runTask env testNodejsTask).2 ∧
    Act.jasmineNodeTests ∉ (runTask env testTask).2 := by
  cases hb : env Act.babelCompileSrc <;> cases ht : env Act.tsDeclarationTests <;>
    simp [runTask, testTask, testNodejsTask, installDriverIntoSandboxTask, nodejsTask,
      runTsDeclarationTestsTask, testBrowserTask, allTask, browserTask, runBrowserTestTask,
      runBrowserTestFirefoxTask, buildBrowserTestTask, buildBrowserTask, h, hb, ht]

/-- The environment in which every leaf action succeeds except the sandbox
dependency install. -/
def envInstallFails : Act → Bool := fun a => decide (a ≠ Act.sandboxInstall)

/-- Witness for `C5_install_failure_blocks_node_tests` in the concrete
environment where exactly the sandbox install fails. -/
theorem C5_install_failure_blocks_node_tests_witness :
    envInstallFails Act.sandboxInstall = false ∧
    (Act.jasmineNodeTests ∉ (runTask envInstallFails testNodejsTask).2 ∧
     Act.jasmineNodeTests ∉ (runTask envInstallFails testTask).2) :=
  ⟨by decide, C5_install_failure_blocks_node_tests envInstallFails (by decide)⟩

/-- C7: the `test` command is
`gulp.series('run-ts-declaration-tests', 'test-nodejs', 'test-browser')`:
it succeeds iff the Declaration Checker, the server test chain and the
browser test chain all succeed (so the process exit code is non-zero
whenever any of the three fails), and its action trace reports the
Declaration Checker's actions first, then the server chain's, then the
browser chain's, each later chain appearing only when the earlier ones
succeeded. -/
theorem C7_test_order_and_exit (env : Act → Bool) :
    ((runTask env testTask).1 = true ↔
      ((runTask env runTsDeclarationTestsTask).1 = true ∧
       (runTask env testNodejsTask).1 = true ∧
       (runTask env testBrowserTask).1 = true)) ∧
    (runTask env testTask).2 =
      (runTask env runTsDeclarationTestsTask).2 ++
      (if (runTask env runTsDeclarationTestsTask).1 then
         (runTask env testNodejsTask).2 ++
         (if (runTask env testNodejsTask).1 then (runTask env testBrowserTask).2 else [])
       else []) := by
  have h1 : testTask = .seq runTsDeclarationTestsTask (.seq testNodejsTask testBrowserTask) := rfl
  constructor
  · rw [h1, runTask_seq, runTask_seq]
    simp [Bool.and_eq_true, and_assoc]
  · rw [h1, runTask_seq, runTask_seq]

/-- C9 (counterexample): under the all-actions-succeed environment, the
`test` command admits exactly ONE schedule — the fully serialized one, in
which the Declaration Checker action precedes every build and test action.
The orchestrator therefore does serialize the Declaration Checker with the
build chain (the gulpfile composes `test` with `gulp.series` only and never
uses `gulp.parallel`), contradicting the claim that independent builder and
checker tasks are not serialized. -/
theorem C9_counterexample :
    schedules (fun _ => true) testTask =
      [(true, [Act.tsDeclarationTests, Act.babelCompileSrc, Act.sandboxInstall,
               Act.jasmineNodeTests, Act.babelCompileSrc, Act.buildBrowserTestBundle,
               Act.buildBrowserBundle, Act.karmaFirefox])] := by
  decide

/-- C9 (amended): the `test` composition uses `gulp.series` exclusively
(`gulp.parallel` never occurs), so in every environment its schedule set is
the singleton deterministic serialized run: the Declaration Checker is
serialized strictly before the build chain and no two of its tasks ever run
concurrently. -/
theorem C9_amended_test_fully_serialized (env : Act → Bool) :
    parFree testTask = true ∧ schedules env testTask = [runTask env testTask] :=
  ⟨by decide, schedules_of_parFree testTask (by decide) env⟩

/-- C10: the default browser test task `'run-browser-test'` (the one
`'test'` and `'test-browser'` invoke) runs the karma bundle in exactly one
engine — firefox; the chrome, edge and ie engines are reachable only
through their dedicated per-engine tasks and never appear in a run of
`'test'` or `'test-browser'`. -/
theorem C10_default_browser_engine (env : Act → Bool) :
    (runTask env runBrowserTestTask).2 = [Act.karmaFirefox] ∧
    (runTask env runBrowserTestChromeTask).2 = [Act.karmaChrome] ∧
    (runTask env runBrowserTestEdgeTask).2 = [Act.karmaEdge] ∧
    (runTask env runBrowserTestIeTask).2 = [Act.karmaIe] ∧
    Act.karmaChrome ∉ (runTask env testTask).2 ∧
    Act.karmaEdge ∉ (runTask env testTask).2 ∧
    Act.karmaIe ∉ (runTask env testTask).2 ∧
    Act.karmaChrome ∉ (runTask env testBrowserTask).2 ∧
    Act.karmaEdge ∉ (runTask env testBrowserTask).2 ∧
    Act.karmaIe ∉ (runTask env testBrowserTask).2 := by
  refine ⟨rfl, rfl, rfl, rfl, ?_, ?_, ?_, ?_, ?_, ?_⟩ <;>
    intro hmem
  · exact absurd (runTask_trace_subset env testTask hmem) (by decide)
  · exact absurd (runTask_trace_subset env testTask hmem) (by decide)
  · exact absurd (runTask_trace_subset env testTask hmem) (by decide)
  · exact absurd (runTask_trace_subset env testBrowserTask hmem) (by decide)
  · exact absurd (runTask_trace_subset env testBrowserTask hmem) (by decide)
  · exact absurd (runTask_trace_subset env testBrowserTask hmem) (by decide)

/-! ## `gulp-replace` lemmas (for the `set` task) -/

theorem gulpReplaceAll_of_no_occurrence (pat rep : List Char) :
    ∀ s : List Char, containsSeg pat s = false → gulpReplaceAll pat rep s = s
  | [], _ => by rw [gulpReplaceAll]
  | c :: cs, h => by
    rw [gulpReplaceAll]
    rw [if_neg ?hneg]
    case hneg =>
      intro hcon
      have h2 := hcon.2
      rw [isPrefixOf_eq_false_of_containsSeg h] at h2
      exact absurd h2 (by decide)
    exact congrArg (c :: ·)
      (gulpReplaceAll_of_no_occurrence pat rep cs (containsSeg_tail h))

/-- When `pat` occurs exactly once in `a ++ (pat ++ b)` (no occurrence
before position `a.length`, none inside `b`), `gulp-replace` rewrites
exactly that occurrence. -/
theorem gulpReplaceAll_single_occurrence (pat rep : List Char) (hp : pat ≠ []) :
    ∀ a b : List Char,
      containsSeg pat ((a ++ pat.dropLast)) = false →
      containsSeg pat b = false →
      gulpReplaceAll pat rep (a ++ (pat ++ b)) = a ++ (rep ++ b)
  | [], b, _, hb => by
    cases hpat : pat with
    | nil => exact absurd hpat hp
    | cons c cs =>
      subst hpat
      simp only [List.nil_append, List.cons_append]
      rw [gulpReplaceAll]
      rw [if_pos ⟨hp, List.isPrefixOf_iff_prefix.mpr ⟨b, rfl⟩⟩]
      simp only [List.length_cons, Nat.add_sub_cancel, List.drop_left]
      rw [gulpReplaceAll_of_no_occurrence _ _ b hb]
  | c :: a', b, ha, hb => by
    have hpre : pat.isPrefixOf ((c :: a') ++ pat ++ b) = false :=
      not_isPrefixOf_of_no_occurrence hp c a' b ha
    rw [List.append_assoc] at hpre
    simp only [List.cons_append] at hpre
    show gulpReplaceAll pat rep (c :: (a' ++ (pat ++ b))) = c :: (a' ++ (rep ++ b))
    rw [gulpReplaceAll]
    rw [if_neg ?hneg2]
    case hneg2 =>
      intro hcon
      have h2 := hcon.2
      rw [hpre] at h2
      exact absurd h2 (by decide)
    exact congrArg (c :: ·)
      (gulpReplaceAll_single_occurrence pat rep hp a' b (containsSeg_tail ha) hb)

/-! ## The `set` task (Version Stamper)

```js
gulp.task('set', function () {
  var version = minimist(process.argv.slice(2), { string: 'version' }).version
  if (!semver.valid(version)) {
    throw new Error(`Invalid version "${version}"`)
  }
  var versionFile = path.join('src', 'version.js')
  return gulp
    .src([versionFile], { base: './' })
    .pipe(replace('0.0.0-dev', version))
    .pipe(gulp.dest('./'))
})
```

The validity check runs before the file pipeline is even constructed, so a
thrown `Invalid version` error leaves the file system untouched.
`semver.valid` belongs to the external `semver` package and is embedded as
a parameter predicate.  A file system is a map from path to byte content.
-/

/-- `path.join('src', 'version.js')` -/
def versionFile : List Char := "src/version.js".data

/-- The fixed placeholder token `'0.0.0-dev'` replaced by the `set` task. -/
def versionPlaceholder : List Char := "0.0.0-dev".data

/-- Outcome of one invocation of the `set` task: the thrown error message,
if any, and the resulting file-system state. -/
structure TaskRun where
  thrown : Option (List Char)
  fs : List Char → List Char

/-- The `set` task.  `semverValid` embeds the external `semver.valid`
predicate; `version` is the parsed `--version` flag (`none` when absent —
JS then interpolates `undefined` into the message, since
`semver.valid(undefined)` is `null`). -/
def setTask (semverValid : String → Bool) (version : Option String)
    (fs0 : List Char → List Char) : TaskRun :=
  match version with
  | none => { thrown := some ("Invalid version \"undefined\"".data), fs := fs0 }
  | some v =>
    if semverValid v then
      { thrown := none,
        fs := fun p =>
          if p = versionFile
          then gulpReplaceAll versionPlaceholder v.data (fs0 p)
          else fs0 p }
    else { thrown := some (("Invalid version \"" ++ v ++ "\"").data), fs := fs0 }

/-! ## Claims C3 and C4: the `set` task -/

/-- C3: for every version string `v` rejected by the semantic-version
validator, the `set` task throws the descriptive `Invalid version "v"`
error (a thrown gulp task errors the run, so the process exit code is
non-zero) and the file system is returned byte-identical — the validity
check precedes the replace pipeline. -/
theorem C3_invalid_version_fails_untouched (semverValid : String → Bool)
    (v : String) (fs0 : List Char → List Char)
    (h : semverValid v = false) :
    (setTask semverValid (some v) fs0).thrown
      = some (("Invalid version \"" ++ v ++ "\"").data) ∧
    (setTask semverValid (some v) fs0).fs = fs0 := by
  simp [setTask, h]

/-- Witness for `C3_invalid_version_fails_untouched` with the validator
that rejects everything and the concrete string `"not-a-version"`. -/
theorem C3_invalid_version_fails_untouched_witness :
    (fun _ : String => false) "not-a-version" = false ∧
    ((setTask (fun _ => false) (some "not-a-version") (fun _ => [])).thrown
        = some (("Invalid version \"" ++ "not-a-version" ++ "\"").data) ∧
     (setTask (fun _ => false) (some "not-a-version") (fun _ => [])).fs
        = (fun _ => [])) :=
  ⟨rfl, C3_invalid_version_fails_untouched (fun _ => false) "not-a-version"
    (fun _ => []) rfl⟩

/-- C4: for every version string accepted by the validator, the `set` task
throws nothing, rewrites the file `src/version.js` — whose content, per the
spec's designated-file contract, holds the placeholder `'0.0.0-dev'`
exactly once, i.e. is `a ++ '0.0.0-dev' ++ b` with no other occurrence —
into `a ++ v ++ b` (exactly the one placeholder occurrence replaced), and
leaves every other path byte-identical. -/
theorem C4_valid_version_single_rewrite (semverValid : String → Bool)
    (v : String) (fs0 : List Char → List Char) (a b p : List Char)
    (hv : semverValid v = true)
    (hfile : fs0 versionFile = a ++ (versionPlaceholder ++ b))
    (ha : containsSeg versionPlaceholder (a ++ versionPlaceholder.dropLast) = false)
    (hb : containsSeg versionPlaceholder b = false)
    (hp : p ≠ versionFile) :
    (setTask semverValid (some v) fs0).thrown = none ∧
    (setTask semverValid (some v) fs0).fs versionFile = a ++ (v.data ++ b) ∧
    (setTask semverValid (some v) fs0).fs p = fs0 p := by
  refine ⟨by simp [setTask, hv], ?_, by simp [setTask, hv, hp]⟩
  simp only [setTask, hv, if_true, if_pos rfl]
  rw [hfile]
  exact gulpReplaceAll_single_occurrence versionPlaceholder v.data (by decide) a b ha hb

/-- A sample file system for the `set` task witness: `src/version.js`
holds one placeholder occurrence; `package.json` is some other file. -/
def sampleFs : List Char → List Char := fun p =>
  if p = versionFile then "module.exports = '".data ++ (versionPlaceholder ++ "'\n".data)
  else "{}".data

/-- Witness for `C4_valid_version_single_rewrite` with the validator that
accepts everything, version `"1.2.3"`, and `sampleFs`. -/
theorem C4_valid_version_single_rewrite_witness :
    ((fun _ : String => true) "1.2.3" = true ∧
     sampleFs versionFile = "module.exports = '".data ++ (versionPlaceholder ++ "'\n".data) ∧
     containsSeg versionPlaceholder
       ("module.exports = '".data ++ versionPlaceholder.dropLast) = false ∧
     containsSeg versionPlaceholder "'\n".data = false ∧
     "package.json".data ≠ versionFile) ∧
    ((setTask (fun _ => true) (some "1.2.3") sampleFs).thrown = none ∧
     (setTask (fun _ => true) (some "1.2.3") sampleFs).fs versionFile
        = "module.exports = '".data ++ ("1.2.3".data ++ "'\n".data) ∧
     (setTask (fun _ => true) (some "1.2.3") sampleFs).fs "package.json".data
        = sampleFs "package.json".data) :=
  ⟨⟨rfl, by decide, by decide, by decide, by decide⟩,
   C4_valid_version_single_rewrite (fun _ => true) "1.2.3" sampleFs
     "module.exports = '".data "'\n".data "package.json".data
     rfl (by decide) (by decide) (by decide) (by decide)⟩

/-! ## `runKarma` and claim C6

```js
function runKarma (browser, cb) {
  new karma.Server(
    { configFile: path.join(__dirname, `/test/browser/karma-${browser}.conf.js`) },
    function (exitCode) {
      exitCode ? process.exit(exitCode) : cb()
    }
  ).start()
}
```
-/

/-- What `runKarma`'s completion callback produces from the karma server's
exit code: a non-zero code terminates the whole gulp process with that code
(`process.exit(exitCode)`), zero completes the task via `cb()` (and a gulp
run whose tasks all complete exits with code 0). -/
inductive KarmaOutcome where
  | processExit : Nat → KarmaOutcome
  | taskDone : KarmaOutcome
  deriving DecidableEq, Repr

def runKarmaCallback (exitCode : Nat) : KarmaOutcome :=
  if exitCode ≠ 0 then .processExit exitCode else .taskDone

/-- One pass/fail record per engine run. -/
structure EngineResult where
  engine : String
  failed : Bool
  deriving DecidableEq, Repr

/-- Modelled from the spec: the karma automation launcher (`karma.Server`
driven by `test/browser/karma-<engine>.conf.js`) is an external collaborator
whose code is not under `src/`.  Per spec §4.6 and §8, one engine run yields
one result record for that engine, marked failed exactly when some assertion
in the test bundle failed, and the launcher's exit code is non-zero exactly
in that case. -/
def karmaServerRun (engine : String) (bundleHasFailingAssertion : Bool) :
    EngineResult × Nat :=
  ({ engine := engine, failed := bundleHasFailingAssertion },
   if bundleHasFailingAssertion then 1 else 0)

/-- `runKarma('firefox', cb)` on a given bundle: the karma server produces
its record and exit code, and the callback maps the exit code to the
process outcome. -/
def runKarmaFirefox (bundleHasFailingAssertion : Bool) :
    EngineResult × KarmaOutcome :=
  let r := karmaServerRun "firefox" bundleHasFailingAssertion
  (r.1, runKarmaCallback r.2)

/-- The process exit code a karma outcome produces. -/
def exitCodeOfOutcome : KarmaOutcome → Nat
  | .processExit c => c
  | .taskDone => 0

/-- C6: running the firefox engine task against a bundle containing a
failing assertion yields process exit code 1 (non-zero) and a result record
for the `firefox` engine marked failed; against a bundle whose assertions
all pass it yields exit code 0 and a record not marked failed. -/
theorem C6_firefox_exit_codes (bundleHasFailingAssertion : Bool) :
    (runKarmaFirefox bundleHasFailingAssertion).1.engine = "firefox" ∧
    (runKarmaFirefox bundleHasFailingAssertion).1.failed = bundleHasFailingAssertion ∧
    exitCodeOfOutcome (runKarmaFirefox bundleHasFailingAssertion).2
      = (if bundleHasFailingAssertion then 1 else 0) := by
  cases bundleHasFailingAssertion <;> exact ⟨rfl, rfl, rfl⟩

end Gulpfile
